import Mathlib

/-!
Verification of the `DatePicker` control (src/src/DatePicker/DatePicker.tsx)
against its design specification.

The component's helper module (`./utils`) is not part of the available
sources; its functions are modelled from the specification, each marked
`Modelled from the spec:` in its doc comment.  Everything else is a direct
shallow embedding of `DatePicker.tsx`: React state becomes explicit record
state, event handlers become pure state-transition functions that also
return the list of `onChange` calls they emit.
-/

set_option maxRecDepth 10000

namespace DatePicker

/-- A host `Date` value as the component observes it, through
`getFullYear` / `getMonth` (0-based) / `getDate`.  All dates the component
builds are at midnight, so chronological comparison of `Date` values is
lexicographic comparison of these three fields. -/
structure JSDate where
  year : Int
  month : Nat
  day : Nat
deriving DecidableEq, Repr

/-- Tag of a grid cell: day of the month before, of the displayed month, or
of the month after. -/
inductive CellType where
  | previous
  | current
  | next
deriving DecidableEq, Repr

/-- Modelled from the spec (the `./utils` module is absent from src):
`DateCellItem` is `{ year, month (0-based), date (day-of-month), type }`. -/
structure DateCellItem where
  year : Int
  month : Nat
  date : Nat
  type : CellType
deriving DecidableEq, Repr

/-- Modelled from the spec (the `./utils` module is absent from src):
`daysInMonth(year, month)` returns the day count for the given
(year, zero-based month), handling leap years for February via the standard
Gregorian rule (divisible by 4, not by 100 unless also by 400). -/
def getDaysAmountInAMonth (year : Int) (month : Nat) : Nat :=
  if month = 1 then
    if (year % 4 = 0 ∧ year % 100 ≠ 0) ∨ year % 400 = 0 then 29 else 28
  else if month = 3 ∨ month = 5 ∨ month = 8 ∨ month = 10 then 30
  else 31

/-- Modelled from the spec: the weekday index (Sunday = 0) of a calendar day,
as the host calendar provides it for the proleptic Gregorian calendar
(Zeller's congruence, floor division).  `month` is 0-based. -/
def dayOfWeek (year : Int) (month : Nat) (day : Nat) : Nat :=
  let zm : Int := if month ≤ 1 then (month : Int) + 13 else (month : Int) + 1
  let zy : Int := if month ≤ 1 then year - 1 else year
  let k : Int := zy % 100
  let j : Int := zy / 100
  let h : Int := ((day : Int) + (13 * (zm + 1)) / 5 + k + k / 4 + j / 4 + 5 * j) % 7
  ((h + 6) % 7).toNat

/-- Modelled from the spec: `currentMonthDays(year, month, totalDays)` is the
`totalDays` cells for days 1..totalDays of the given month, each tagged
`current`. -/
def getCurrentMonthDays (year : Int) (month : Nat) (numberOfDays : Nat) :
    List DateCellItem :=
  (List.range numberOfDays).map (fun i =>
    ⟨year, month, i + 1, CellType.current⟩)

/-- Modelled from the spec: `previousMonthDays(year, month)` is the trailing
N days of the month preceding (year, month), where N is the weekday index
(Sunday = 0) of day 1 of (year, month); empty when day 1 falls on Sunday.
Each cell is tagged `previous`, with year/month rolled back (December of the
previous year when month is January). -/
def getPreviousMonthDays (year : Int) (month : Nat) : List DateCellItem :=
  let n := dayOfWeek year month 1
  let cellYear : Int := if month = 0 then year - 1 else year
  let cellMonth : Nat := if month = 0 then 11 else month - 1
  let daysAmountInPrevMonth := getDaysAmountInAMonth cellYear cellMonth
  (List.range n).map (fun i =>
    ⟨cellYear, cellMonth, daysAmountInPrevMonth - n + 1 + i, CellType.previous⟩)

/-- Modelled from the spec: `nextMonthDays(year, month)` is the leading days
of the month following (year, month), enough to pad previous + current + next
to exactly 42 cells.  Each cell is tagged `next`, with year/month rolled
forward (January of the next year when month is December). -/
def getNextMonthDays (year : Int) (month : Nat) : List DateCellItem :=
  let n := dayOfWeek year month 1
  let daysAmount := getDaysAmountInAMonth year month
  let cellYear : Int := if month = 11 then year + 1 else year
  let cellMonth : Nat := if month = 11 then 0 else month + 1
  (List.range (42 - daysAmount - n)).map (fun i =>
    ⟨cellYear, cellMonth, i + 1, CellType.next⟩)

/-- The `dateCells` memo of `DatePickerPoputContent`: the concatenation
previous ++ current ++ next for the displayed panel. -/
def dateCells (panelYear : Int) (panelMonth : Nat) : List DateCellItem :=
  getPreviousMonthDays panelYear panelMonth
    ++ getCurrentMonthDays panelYear panelMonth
        (getDaysAmountInAMonth panelYear panelMonth)
    ++ getNextMonthDays panelYear panelMonth

/-! ### Canonical text format (modelled from the spec) -/

/-- Numeric value of a decimal digit character. -/
def charToDigit (c : Char) : Nat := c.toNat - '0'.toNat

/-- Decimal digit character of a value below 10. -/
def digitToChar (d : Nat) : Char :=
  match d with
  | 0 => '0' | 1 => '1' | 2 => '2' | 3 => '3' | 4 => '4'
  | 5 => '5' | 6 => '6' | 7 => '7' | 8 => '8' | _ => '9'

/-- Little-endian decimal digits of a natural number (empty for 0). -/
def natDigitsLE (n : Nat) : List Nat :=
  if h : n = 0 then [] else n % 10 :: natDigitsLE (n / 10)
decreasing_by exact Nat.div_lt_self (Nat.pos_of_ne_zero h) (by norm_num)

/-- Decimal digit characters of a natural number, most significant first. -/
def natToChars (n : Nat) : List Char :=
  if n = 0 then ['0'] else ((natDigitsLE n).reverse.map digitToChar)

/-- Left-pad a character list with `'0'` up to the given width. -/
def padZero (width : Nat) (l : List Char) : List Char :=
  List.replicate (width - l.length) '0' ++ l

/-- Modelled from the spec (the `./utils` module is absent from src):
`getInputValueFromDate` renders a date in the canonical `YYYY-MM-DD` format
(month printed 1-based, fields zero-padded).  The canonical format covers
non-negative years. -/
def getInputValueFromDate (d : JSDate) : String :=
  String.mk (padZero 4 (natToChars d.year.toNat)
    ++ '-' :: (padZero 2 (natToChars (d.month + 1))
      ++ '-' :: padZero 2 (natToChars d.day)))

/-- Split a character list on `'-'` separators. -/
def splitDash (l : List Char) : List (List Char) :=
  match l with
  | [] => [[]]
  | c :: rest =>
    if c = '-' then [] :: splitDash rest
    else
      match splitDash rest with
      | [] => [[c]]
      | h :: t => (c :: h) :: t

/-- Numeric value of a big-endian decimal digit string. -/
def charsToNat (l : List Char) : Nat :=
  l.foldl (fun a c => 10 * a + charToDigit c) 0

/-- Modelled from the spec (the `./utils` module is absent from src):
`getDateFromInputValue` parses the canonical `YYYY-MM-DD` format; it fails
(`none`) when the text does not match the expected shape or describes an
impossible calendar date (month outside 1..12 or day outside the month's
day count). -/
def getDateFromInputValue (s : String) : Option JSDate :=
  match splitDash s.toList with
  | [ys, ms, ds] =>
    if ys.isEmpty || ms.isEmpty || ds.isEmpty
        || !(ys ++ ms ++ ds).all Char.isDigit then
      none
    else
      let y := charsToNat ys
      let mo := charsToNat ms
      let dd := charsToNat ds
      if 1 ≤ mo ∧ mo ≤ 12 ∧ 1 ≤ dd ∧ dd ≤ getDaysAmountInAMonth (y : Int) (mo - 1) then
        some ⟨(y : Int), mo - 1, dd⟩
      else none
  | _ => none

/-! ### Range predicate and host `Date` constructor -/

/-- Chronological order on midnight `Date` values: lexicographic on
(year, month, day). -/
def dateLe (a b : JSDate) : Bool :=
  decide (a.year < b.year
    ∨ (a.year = b.year
        ∧ (a.month < b.month ∨ (a.month = b.month ∧ a.day ≤ b.day))))

/-- Modelled from the spec (the `./utils` module is absent from src):
`isInRange(date, min, max)` holds iff `date` is not earlier than `min`
(when present) and not later than `max` (when present); bounds inclusive. -/
def isInRange (d : JSDate) (min max : Option JSDate) : Bool :=
  (match min with
   | none => true
   | some lo => dateLe lo d)
  && (match max with
      | none => true
      | some hi => dateLe d hi)

/-- Day-normalisation step of the host `Date` constructor: roll a day
number that under- or overflows the month into the adjacent months.  The
fuel bounds the number of month steps. -/
def normDayAux : Nat → Int → Nat → Int → JSDate
  | 0, y, m, d => ⟨y, m, d.toNat⟩
  | fuel + 1, y, m, d =>
    if d < 1 then
      let py : Int := if m = 0 then y - 1 else y
      let pm : Nat := if m = 0 then 11 else m - 1
      normDayAux fuel py pm (d + getDaysAmountInAMonth py pm)
    else if (getDaysAmountInAMonth y m : Int) < d then
      let ny : Int := if m = 11 then y + 1 else y
      let nm : Nat := if m = 11 then 0 else m + 1
      normDayAux fuel ny nm (d - getDaysAmountInAMonth y m)
    else ⟨y, m, d.toNat⟩

/-- Models the host `new Date(year, monthIndex, day)` constructor: a month
index outside 0..11 rolls into adjacent years, then the day number rolls
into adjacent months. -/
def jsMkDate (year month day : Int) : JSDate :=
  let total := year * 12 + month
  normDayAux (day.natAbs + 1) (total / 12) ((total % 12).toNat) day

/-! ### Controller state and event handlers (DatePicker.tsx) -/

/-- State of the `DatePicker` component: popup visibility, the raw input
text, the externally owned selected date and the optional bounds. -/
structure PickerState where
  showPopup : Bool
  inputValue : String
  value : JSDate
  min : Option JSDate
  max : Option JSDate
deriving DecidableEq, Repr

/-- `updateValueOnPopupCloseAction` (DatePicker.tsx lines 49-63): parse the
input text, close the popup; on parse failure reset the input text to the
canonical format of the selected date; on an out-of-range parse do nothing
more; on an in-range parse emit `onChange` with the parsed date.  The
second component collects the `onChange` calls. -/
def updateValueOnPopupCloseAction (s : PickerState) :
    PickerState × List JSDate :=
  match getDateFromInputValue s.inputValue with
  | none =>
    ({ s with showPopup := false,
              inputValue := getInputValueFromDate s.value }, [])
  | some date =>
    if isInRange date s.min s.max then
      ({ s with showPopup := false }, [date])
    else
      ({ s with showPopup := false }, [])

/-- `handleChange` (lines 93-96): emit `onChange` with the given date and
close the popup. -/
def handleChange (s : PickerState) (d : JSDate) : PickerState × List JSDate :=
  ({ s with showPopup := false }, [d])

/-- `onDateSelect` (lines 206-208) followed by `handleChange`: clicking a
grid cell commits `new Date(item.year, item.month, item.date)`. -/
def cellClick (s : PickerState) (item : DateCellItem) :
    PickerState × List JSDate :=
  handleChange s (jsMkDate item.year item.month item.date)

/-- `onDocumentClick` (lines 72-84): ignore targets that are not DOM nodes
or that lie inside the control's root element; otherwise run the
popup-close commit action.  The handler never consults `showPopup`. -/
def onDocumentClick (targetIsNode targetInsideElement : Bool)
    (s : PickerState) : PickerState × List JSDate :=
  if !targetIsNode then (s, [])
  else if targetInsideElement then (s, [])
  else updateValueOnPopupCloseAction s

/-- `onKeyDown` (lines 118-124): run the popup-close commit action on
Enter, do nothing otherwise. -/
def onKeyDown (key : String) (s : PickerState) : PickerState × List JSDate :=
  if key ≠ "Enter" then (s, [])
  else updateValueOnPopupCloseAction s

/-- The `[inputValueDate, isValidInputValue]` memo (lines 106-116): parse
the input text; on failure the derived date is `undefined` and the validity
flag false; on success the range check is computed but the memo returns the
date with flag true regardless. -/
def inputValueMemo (inputValue : String) (min max : Option JSDate) :
    Option JSDate × Bool :=
  match getDateFromInputValue inputValue with
  | none => (none, false)
  | some date =>
    let _isDateInRange := isInRange date min max
    (some date, true)

/-- The panel-sync layout effect (lines 175-181): when the derived input
date is present, move the panel to its month and year; otherwise leave the
panel unchanged. -/
def panelSyncEffect (inputValueDate : Option JSDate)
    (panelYear : Int) (panelMonth : Nat) : Int × Nat :=
  match inputValueDate with
  | none => (panelYear, panelMonth)
  | some d => (d.year, d.month)

/-- State of `DatePickerPoputContent` relevant to navigation, together with
the surrounding selected date and input text (which navigation must not
touch). -/
structure PopupState where
  panelYear : Int
  panelMonth : Nat
  selectedValue : JSDate
  inputValue : String
deriving DecidableEq, Repr

/-- `nextYear` (lines 210-212). -/
def nextYear (s : PopupState) : PopupState :=
  { s with panelYear := s.panelYear + 1 }

/-- `prevYear` (lines 214-216). -/
def prevYear (s : PopupState) : PopupState :=
  { s with panelYear := s.panelYear - 1 }

/-- `nextMonth` (lines 218-225). -/
def nextMonth (s : PopupState) : PopupState :=
  if s.panelMonth = 11 then
    { s with panelMonth := 0, panelYear := s.panelYear + 1 }
  else
    { s with panelMonth := s.panelMonth + 1 }

/-- `prevMonth` (lines 227-234). -/
def prevMonth (s : PopupState) : PopupState :=
  if s.panelMonth = 0 then
    { s with panelMonth := 11, panelYear := s.panelYear - 1 }
  else
    { s with panelMonth := s.panelMonth - 1 }

/-- The per-cell `isOutsideRange` flag (lines 273-277 and 285): the styling
class is applied when `isInRange(new Date(cell.year, cell.month - 1,
cell.date), min, max)` is false. -/
def cellIsOutsideRange (cell : DateCellItem) (min max : Option JSDate) :
    Bool :=
  !(isInRange (jsMkDate cell.year ((cell.month : Int) - 1) (cell.date : Int))
      min max)

/-! ### Helper lemmas -/

/-- A Zeller weekday index is below 7. -/
lemma emod_seven_toNat_lt (t : Int) : ((t % 7 + 6) % 7).toNat < 7 := by
  omega

/-- The weekday index is below 7. -/
lemma dayOfWeek_lt (year : Int) (month day : Nat) :
    dayOfWeek year month day < 7 := by
  unfold dayOfWeek
  exact emod_seven_toNat_lt _

/-- Every month has between 28 and 31 days. -/
lemma getDaysAmountInAMonth_bounds (year : Int) (month : Nat) :
    28 ≤ getDaysAmountInAMonth year month
      ∧ getDaysAmountInAMonth year month ≤ 31 := by
  unfold getDaysAmountInAMonth
  split_ifs <;> omega

/-- On an in-range (month, day) pair the host `Date` constructor performs no
normalisation. -/
lemma jsMkDate_self (y : Int) (m d : Nat) (hm : m ≤ 11) (h1 : 1 ≤ d)
    (h2 : d ≤ getDaysAmountInAMonth y m) :
    jsMkDate y (m : Int) (d : Int) = ⟨y, m, d⟩ := by
  show normDayAux ((d : Int).natAbs + 1) ((y * 12 + (m : Int)) / 12)
      ((y * 12 + (m : Int)) % 12).toNat (d : Int) = ⟨y, m, d⟩
  have hdiv : (y * 12 + (m : Int)) / 12 = y := by omega
  have hmod : ((y * 12 + (m : Int)) % 12).toNat = m := by omega
  have habs : ((d : Int)).natAbs = d := Int.natAbs_ofNat d
  rw [hdiv, hmod, habs]
  rw [normDayAux]
  have hc1 : ¬((d : Int) < 1) := by exact_mod_cast not_lt.mpr h1
  have hc2 : ¬((getDaysAmountInAMonth y m : Int) < (d : Int)) := by
    exact_mod_cast not_lt.mpr h2
  rw [if_neg hc1, if_neg hc2]
  simp

/-! ### Digit and split lemmas for the canonical format -/

/-- Reading back a printed digit recovers it. -/
lemma charToDigit_digitToChar (d : Nat) (h : d < 10) :
    charToDigit (digitToChar d) = d := by
  interval_cases d <;> decide

/-- Printed digits satisfy `isDigit`. -/
lemma digitToChar_isDigit (d : Nat) : (digitToChar d).isDigit = true := by
  unfold digitToChar
  split <;> decide

/-- Digit characters are not the separator. -/
lemma ne_dash_of_isDigit {c : Char} (h : c.isDigit = true) : c ≠ '-' := by
  rintro rfl
  exact absurd h (by decide)

/-- `splitDash` never returns the empty list of fragments. -/
lemma splitDash_ne_nil (l : List Char) : splitDash l ≠ [] := by
  induction l with
  | nil => simp [splitDash]
  | cons c t ih =>
    unfold splitDash
    by_cases hc : c = '-'
    · simp [hc]
    · cases hs : splitDash t with
      | nil => exact absurd hs ih
      | cons h t' => simp [hc, hs]

/-- A fragment without separators is returned whole. -/
lemma splitDash_no_dash (l : List Char) (h : ∀ c ∈ l, c ≠ '-') :
    splitDash l = [l] := by
  induction l with
  | nil => rfl
  | cons c t ih =>
    have hc : c ≠ '-' := h c (by simp)
    have ht : splitDash t = [t] := ih (fun x hx => h x (by simp [hx]))
    unfold splitDash
    rw [if_neg hc, ht]

/-- Splitting peels off a separator-free prefix at the first separator. -/
lemma splitDash_append (A rest : List Char) (h : ∀ c ∈ A, c ≠ '-') :
    splitDash (A ++ '-' :: rest) = A :: splitDash rest := by
  induction A with
  | nil => simp [splitDash]
  | cons a t ih =>
    have ha : a ≠ '-' := h a (by simp)
    have ht : splitDash (t ++ '-' :: rest) = t :: splitDash rest :=
      ih (fun x hx => h x (by simp [hx]))
    rw [List.cons_append]
    show (if a = '-' then [] :: splitDash (t ++ '-' :: rest)
      else match splitDash (t ++ '-' :: rest) with
        | [] => [[a]]
        | h :: t' => (a :: h) :: t') = (a :: t) :: splitDash rest
    rw [if_neg ha, ht]

/-- Leading zeros do not change the parsed value. -/
lemma charsToNat_replicate_zero (k : Nat) (l : List Char) :
    charsToNat (List.replicate k '0' ++ l) = charsToNat l := by
  induction k with
  | zero => simp
  | succ n ih =>
    rw [List.replicate_succ, List.cons_append]
    unfold charsToNat at ih ⊢
    rw [List.foldl_cons]
    have h0 : 10 * 0 + charToDigit '0' = 0 := by decide
    rw [h0]
    exact ih

/-- Every digit produced by `natDigitsLE` is below 10. -/
lemma natDigitsLE_lt_ten (n : Nat) : ∀ d ∈ natDigitsLE n, d < 10 := by
  induction n using Nat.strong_induction_on with
  | _ n ih =>
    rw [natDigitsLE]
    split_ifs with h
    · simp
    · intro d hd
      rcases List.mem_cons.mp hd with rfl | hmem
      · exact Nat.mod_lt _ (by norm_num)
      · exact ih (n / 10) (Nat.div_lt_self (Nat.pos_of_ne_zero h)
          (by norm_num)) d hmem

/-- Folding the reversed little-endian digits rebuilds the number. -/
lemma foldl_reverse_natDigitsLE (n : Nat) :
    (natDigitsLE n).reverse.foldl (fun x d => 10 * x + d) 0 = n := by
  induction n using Nat.strong_induction_on with
  | _ n ih =>
    rw [natDigitsLE]
    split_ifs with h
    · simp [h]
    · rw [List.reverse_cons, List.foldl_append]
      rw [ih (n / 10) (Nat.div_lt_self (Nat.pos_of_ne_zero h) (by norm_num))]
      simp only [List.foldl_cons, List.foldl_nil]
      omega

/-- Parsing printed digits equals folding the underlying digit values. -/
lemma charsToNat_map_digitToChar (l : List Nat) (a : Nat)
    (h : ∀ d ∈ l, d < 10) :
    (l.map digitToChar).foldl (fun x c => 10 * x + charToDigit c) a
      = l.foldl (fun x d => 10 * x + d) a := by
  induction l generalizing a with
  | nil => rfl
  | cons c t ih =>
    simp only [List.map_cons, List.foldl_cons]
    rw [charToDigit_digitToChar c (h c (by simp))]
    exact ih _ (fun d hd => h d (by simp [hd]))

/-- Parsing the decimal rendering of `n` recovers `n`. -/
lemma charsToNat_natToChars (n : Nat) : charsToNat (natToChars n) = n := by
  unfold natToChars
  split_ifs with h
  · subst h
    decide
  · unfold charsToNat
    rw [charsToNat_map_digitToChar _ 0
      (fun d hd => natDigitsLE_lt_ten n d (List.mem_reverse.mp hd))]
    exact foldl_reverse_natDigitsLE n

/-- Parsing a zero-padded rendering ignores the padding. -/
lemma charsToNat_padZero (w : Nat) (l : List Char) :
    charsToNat (padZero w l) = charsToNat l :=
  charsToNat_replicate_zero _ _

/-- The decimal rendering is never empty. -/
lemma natToChars_ne_nil (n : Nat) : natToChars n ≠ [] := by
  unfold natToChars
  split_ifs with h
  · simp
  · rw [natDigitsLE]
    rw [dif_neg h]
    simp

/-- Zero-padded renderings are never empty. -/
lemma padZero_ne_nil (w : Nat) (l : List Char) (h : l ≠ []) :
    padZero w l ≠ [] := by
  unfold padZero
  intro hc
  exact h (List.append_eq_nil.mp hc).2

/-- Every character of the decimal rendering is a digit. -/
lemma natToChars_all_digit (n : Nat) :
    ∀ c ∈ natToChars n, c.isDigit = true := by
  unfold natToChars
  split_ifs with h
  · simp
  · intro c hc
    obtain ⟨d, -, rfl⟩ := List.mem_map.mp hc
    exact digitToChar_isDigit d

/-- Every character of a zero-padded rendering is a digit. -/
lemma padZero_all_digit (w : Nat) (l : List Char)
    (h : ∀ c ∈ l, c.isDigit = true) :
    ∀ c ∈ padZero w l, c.isDigit = true := by
  intro c hc
  rcases List.mem_append.mp hc with hrep | hmem
  · rw [List.eq_of_mem_replicate hrep]
    decide
  · exact h c hmem

/-! ### Claim theorems -/

/-- Claim C1: for every commit-on-popup-close trigger (Enter key or outside
click) with input text `t`, selected date `s` and optional bounds: if `t`
fails to parse, the popup closes, the input text is reset to the canonical
format of the selected date and `onChange` is not called; if `t` parses out
of range, the popup closes, the input text stays equal to `t` and
`onChange` is not called; if `t` parses in range, `onChange` is called with
the parsed date and the popup closes. -/
theorem commit_on_popup_close_cases (s : PickerState) :
    onKeyDown "Enter" s = updateValueOnPopupCloseAction s
    ∧ (getDateFromInputValue s.inputValue = none →
        updateValueOnPopupCloseAction s
          = ({ s with showPopup := false,
                      inputValue := getInputValueFromDate s.value }, []))
    ∧ (∀ d, getDateFromInputValue s.inputValue = some d →
        isInRange d s.min s.max = false →
        updateValueOnPopupCloseAction s
          = ({ s with showPopup := false }, []))
    ∧ (∀ d, getDateFromInputValue s.inputValue = some d →
        isInRange d s.min s.max = true →
        updateValueOnPopupCloseAction s
          = ({ s with showPopup := false }, [d])) := by
  refine ⟨by simp [onKeyDown], ?_, ?_, ?_⟩
  · intro h
    simp [updateValueOnPopupCloseAction, h]
  · intro d hd hr
    simp [updateValueOnPopupCloseAction, hd, hr]
  · intro d hd hr
    simp [updateValueOnPopupCloseAction, hd, hr]

/-- Concrete run of the in-range branch of the commit action: typing
"2023-06-01" with selected date 2023-05-15 and no bounds commits the parsed
date, closes the popup and keeps the text. -/
theorem commit_on_popup_close_cases_witness :
    updateValueOnPopupCloseAction
        ⟨true, "2023-06-01", ⟨2023, 4, 15⟩, none, none⟩
      = (⟨false, "2023-06-01", ⟨2023, 4, 15⟩, none, none⟩, [⟨2023, 5, 1⟩]) :=
  (commit_on_popup_close_cases
      ⟨true, "2023-06-01", ⟨2023, 4, 15⟩, none, none⟩).2.2.2
    ⟨2023, 5, 1⟩ (by decide) (by decide)

/-- Claim C2 (code bug): the per-cell `isOutsideRange` flag is computed on
`new Date(cell.year, cell.month - 1, cell.date)` — one month before the
cell — so the in-range cell 2023-05-15 (month index 4) is flagged outside
the range [2023-05-15, 2023-05-15] even though the cell's own date is in
range; the check actually ran on 2023-04-15. -/
theorem cell_range_flag_uses_previous_month :
    cellIsOutsideRange ⟨2023, 4, 15, CellType.current⟩
        (some ⟨2023, 4, 15⟩) (some ⟨2023, 4, 15⟩) = true
    ∧ isInRange ⟨2023, 4, 15⟩ (some ⟨2023, 4, 15⟩) (some ⟨2023, 4, 15⟩) = true
    ∧ jsMkDate 2023 ((4 : Int) - 1) 15 = ⟨2023, 3, 15⟩ := by
  refine ⟨by decide, by decide, by decide⟩

/-- Claim C4: clicking a grid cell emits `onChange` exactly once with the
cell's own (year, month, date) and closes the popup, independently of the
input text and of the bounds held in the state. -/
theorem cell_click_commits (s : PickerState) (cell : DateCellItem)
    (hm : cell.month ≤ 11) (h1 : 1 ≤ cell.date)
    (h2 : cell.date ≤ getDaysAmountInAMonth cell.year cell.month) :
    cellClick s cell
      = ({ s with showPopup := false }, [⟨cell.year, cell.month, cell.date⟩]) := by
  unfold cellClick handleChange
  rw [jsMkDate_self cell.year cell.month cell.date hm h1 h2]

/-- Concrete run of a cell click: an out-of-range cell (bounds confine to
April) still commits, with unparseable input text left in the state. -/
theorem cell_click_commits_witness :
    cellClick ⟨true, "abcd", ⟨2023, 3, 1⟩,
        some ⟨2023, 3, 1⟩, some ⟨2023, 3, 30⟩⟩
        ⟨2023, 4, 15, CellType.current⟩
      = (⟨false, "abcd", ⟨2023, 3, 1⟩,
          some ⟨2023, 3, 1⟩, some ⟨2023, 3, 30⟩⟩, [⟨2023, 4, 15⟩]) :=
  cell_click_commits
    ⟨true, "abcd", ⟨2023, 3, 1⟩, some ⟨2023, 3, 1⟩, some ⟨2023, 3, 30⟩⟩
    ⟨2023, 4, 15, CellType.current⟩ (by decide) (by decide) (by decide)

/-- Claim C5: next-month wraps (y, 11) to (y+1, 0) and steps (y, m) to
(y, m+1) otherwise; prev-month wraps (y, 0) to (y-1, 11) and steps to
(y, m-1) otherwise; none of the four navigation actions touches the
selected date or the input text; four next-month steps from October land in
February of the next year. -/
theorem month_navigation (s : PopupState) (hm : s.panelMonth ≤ 11) :
    (s.panelMonth = 11 →
      nextMonth s = { s with panelYear := s.panelYear + 1, panelMonth := 0 })
    ∧ (s.panelMonth < 11 →
      nextMonth s = { s with panelMonth := s.panelMonth + 1 })
    ∧ (s.panelMonth = 0 →
      prevMonth s = { s with panelYear := s.panelYear - 1, panelMonth := 11 })
    ∧ (0 < s.panelMonth →
      prevMonth s = { s with panelMonth := s.panelMonth - 1 })
    ∧ (nextMonth s).selectedValue = s.selectedValue
    ∧ (nextMonth s).inputValue = s.inputValue
    ∧ (prevMonth s).selectedValue = s.selectedValue
    ∧ (prevMonth s).inputValue = s.inputValue
    ∧ (nextYear s).selectedValue = s.selectedValue
    ∧ (nextYear s).inputValue = s.inputValue
    ∧ (prevYear s).selectedValue = s.selectedValue
    ∧ (prevYear s).inputValue = s.inputValue
    ∧ (s.panelMonth = 9 →
      nextMonth (nextMonth (nextMonth (nextMonth s)))
        = { s with panelYear := s.panelYear + 1, panelMonth := 1 }) := by
  obtain ⟨y, m, v, t⟩ := s
  dsimp only at hm ⊢
  refine ⟨?_, ?_, ?_, ?_, ?_, ?_, ?_, ?_, rfl, rfl, rfl, rfl, ?_⟩
  · intro h
    simp only [nextMonth]
    rw [if_pos h]
  · intro h
    simp only [nextMonth]
    rw [if_neg (by omega)]
  · intro h
    simp only [prevMonth]
    rw [if_pos h]
  · intro h
    simp only [prevMonth]
    rw [if_neg (by omega)]
  · simp only [nextMonth]
    split <;> rfl
  · simp only [nextMonth]
    split <;> rfl
  · simp only [prevMonth]
    split <;> rfl
  · simp only [prevMonth]
    split <;> rfl
  · intro h
    subst h
    rfl

/-- Concrete run of month navigation: from (2023, October) four next-month
clicks reach (2024, February), and prev-month from January wraps. -/
theorem month_navigation_witness :
    nextMonth (nextMonth (nextMonth (nextMonth ⟨2023, 9, ⟨2023, 4, 15⟩, "x"⟩)))
      = ⟨2024, 1, ⟨2023, 4, 15⟩, "x"⟩
    ∧ prevMonth ⟨2023, 0, ⟨2023, 4, 15⟩, "x"⟩
      = ⟨2022, 11, ⟨2023, 4, 15⟩, "x"⟩ :=
  ⟨(month_navigation ⟨2023, 9, ⟨2023, 4, 15⟩, "x"⟩ (by decide)).2.2.2.2.2.2.2.2.2.2.2.2
      (by decide),
   (month_navigation ⟨2023, 0, ⟨2023, 4, 15⟩, "x"⟩ (by decide)).2.2.1 (by decide)⟩

/-- Claim C6: whenever the input text parses (in range or not), the panel
sync effect moves the panel to the parsed date's year and month; whenever
it does not parse, the panel is left unchanged. -/
theorem panel_auto_sync (t : String) (mi ma : Option JSDate)
    (py : Int) (pm : Nat) :
    (∀ d, getDateFromInputValue t = some d →
      panelSyncEffect (inputValueMemo t mi ma).1 py pm = (d.year, d.month))
    ∧ (getDateFromInputValue t = none →
      panelSyncEffect (inputValueMemo t mi ma).1 py pm = (py, pm)) := by
  constructor
  · intro d hd
    simp [inputValueMemo, hd, panelSyncEffect]
  · intro h
    simp [inputValueMemo, h, panelSyncEffect]

/-- Concrete run of panel auto-sync: "2023-06-01" is outside the April
bounds yet still moves the panel to June 2023; "abcd" leaves it alone. -/
theorem panel_auto_sync_witness :
    panelSyncEffect
        (inputValueMemo "2023-06-01" (some ⟨2023, 3, 1⟩) (some ⟨2023, 3, 30⟩)).1
        2020 0
      = (2023, 5)
    ∧ panelSyncEffect
        (inputValueMemo "abcd" (some ⟨2023, 3, 1⟩) (some ⟨2023, 3, 30⟩)).1
        2020 0
      = (2020, 0) :=
  ⟨(panel_auto_sync "2023-06-01" (some ⟨2023, 3, 1⟩) (some ⟨2023, 3, 30⟩)
      2020 0).1 ⟨2023, 5, 1⟩ (by decide),
   (panel_auto_sync "abcd" (some ⟨2023, 3, 1⟩) (some ⟨2023, 3, 30⟩)
      2020 0).2 (by decide)⟩

/-- Claim C7: the derived validity flag is true iff the input text parses;
the bounds are quantified over and do not occur on the right-hand side, so
the computed range check never affects the flag. -/
theorem validity_flag_ignores_range (t : String) (mi ma : Option JSDate) :
    (inputValueMemo t mi ma).2 = (getDateFromInputValue t).isSome := by
  unfold inputValueMemo
  cases getDateFromInputValue t <;> simp

/-- Claim C9: `daysInMonth` returns the Gregorian day count of every month,
with February at 29 days exactly when the year is divisible by 4 and not by
100 unless also by 400; in particular 2024 and 2023. -/
theorem days_in_month_gregorian :
    (∀ y : Int,
      getDaysAmountInAMonth y 1
        = (if (4 ∣ y ∧ ¬(100 ∣ y)) ∨ 400 ∣ y then 29 else 28)
      ∧ getDaysAmountInAMonth y 0 = 31
      ∧ getDaysAmountInAMonth y 2 = 31
      ∧ getDaysAmountInAMonth y 3 = 30
      ∧ getDaysAmountInAMonth y 4 = 31
      ∧ getDaysAmountInAMonth y 5 = 30
      ∧ getDaysAmountInAMonth y 6 = 31
      ∧ getDaysAmountInAMonth y 7 = 31
      ∧ getDaysAmountInAMonth y 8 = 30
      ∧ getDaysAmountInAMonth y 9 = 31
      ∧ getDaysAmountInAMonth y 10 = 30
      ∧ getDaysAmountInAMonth y 11 = 31)
    ∧ getDaysAmountInAMonth 2024 1 = 29
    ∧ getDaysAmountInAMonth 2023 1 = 28 := by
  refine ⟨fun y => ⟨?_, by rfl, by rfl, by rfl, by rfl, by rfl, by rfl,
    by rfl, by rfl, by rfl, by rfl, by rfl⟩, by decide, by decide⟩
  unfold getDaysAmountInAMonth
  simp only [if_pos rfl]
  split_ifs <;> omega

/-- Claim C10: a document click outside the control runs the commit action
even while the popup is closed: with unparseable text the input resets to
the canonical format of the selected date and `onChange` is silent; with
in-range parseable text `onChange` fires. -/
theorem outside_click_runs_while_closed (s : PickerState)
    (_hclosed : s.showPopup = false) :
    onDocumentClick true false s = updateValueOnPopupCloseAction s
    ∧ (getDateFromInputValue s.inputValue = none →
        (onDocumentClick true false s).1.inputValue
            = getInputValueFromDate s.value
        ∧ (onDocumentClick true false s).2 = [])
    ∧ (∀ d, getDateFromInputValue s.inputValue = some d →
        isInRange d s.min s.max = true →
        (onDocumentClick true false s).2 = [d]) := by
  have heq : onDocumentClick true false s = updateValueOnPopupCloseAction s := by
    simp [onDocumentClick]
  refine ⟨heq, ?_, ?_⟩
  · intro h
    rw [heq]
    simp [updateValueOnPopupCloseAction, h]
  · intro d hd hr
    rw [heq]
    simp [updateValueOnPopupCloseAction, hd, hr]

/-- Concrete run of an outside click with the popup closed: the in-range
text "2023-06-01" commits even though no popup was open. -/
theorem outside_click_runs_while_closed_witness :
    (onDocumentClick true false
        ⟨false, "2023-06-01", ⟨2023, 4, 15⟩, none, none⟩).2
      = [⟨2023, 5, 1⟩] :=
  (outside_click_runs_while_closed
      ⟨false, "2023-06-01", ⟨2023, 4, 15⟩, none, none⟩ (by decide)).2.2
    ⟨2023, 5, 1⟩ (by decide) (by decide)

/-- Claim C3: the panel grid is previous ++ current ++ next, has exactly 42
cells, its `current` cells form the middle segment of length
`daysInMonth(year, month)`, all leading cells are tagged `previous` and all
trailing cells are tagged `next`. -/
theorem grid_structure (y : Int) (m : Nat) (_hm : m ≤ 11) :
    dateCells y m
      = getPreviousMonthDays y m
          ++ getCurrentMonthDays y m (getDaysAmountInAMonth y m)
          ++ getNextMonthDays y m
    ∧ (dateCells y m).length = 42
    ∧ (getCurrentMonthDays y m (getDaysAmountInAMonth y m)).length
        = getDaysAmountInAMonth y m
    ∧ (∀ c ∈ getPreviousMonthDays y m, c.type = CellType.previous)
    ∧ (∀ c ∈ getCurrentMonthDays y m (getDaysAmountInAMonth y m),
        c.type = CellType.current)
    ∧ (∀ c ∈ getNextMonthDays y m, c.type = CellType.next) := by
  have hn := dayOfWeek_lt y m 1
  have hb := getDaysAmountInAMonth_bounds y m
  refine ⟨rfl, ?_, ?_, ?_, ?_, ?_⟩
  · simp only [dateCells, getPreviousMonthDays, getCurrentMonthDays,
      getNextMonthDays, List.length_append, List.length_map,
      List.length_range]
    omega
  · simp [getCurrentMonthDays]
  · intro c hc
    simp only [getPreviousMonthDays, List.mem_map] at hc
    obtain ⟨i, -, rfl⟩ := hc
    rfl
  · intro c hc
    simp only [getCurrentMonthDays, List.mem_map] at hc
    obtain ⟨i, -, rfl⟩ := hc
    rfl
  · intro c hc
    simp only [getNextMonthDays, List.mem_map] at hc
    obtain ⟨i, -, rfl⟩ := hc
    rfl

/-- Claim C8: parsing the canonical rendering of a valid calendar date
yields the date again: `parse(format(D)) = D` for every `D` with a
non-negative year, month index in 0..11 and day in 1..daysInMonth. -/
theorem parse_format_roundtrip (d : JSDate) (hy : 0 ≤ d.year)
    (hm : d.month ≤ 11) (hd1 : 1 ≤ d.day)
    (hd2 : d.day ≤ getDaysAmountInAMonth d.year d.month) :
    getDateFromInputValue (getInputValueFromDate d) = some d := by
  obtain ⟨y, m, dd⟩ := d
  dsimp only at hy hm hd1 hd2
  set Y := padZero 4 (natToChars y.toNat) with hYdef
  set M := padZero 2 (natToChars (m + 1)) with hMdef
  set D := padZero 2 (natToChars dd) with hDdef
  have hYdig : ∀ c ∈ Y, c.isDigit = true :=
    padZero_all_digit _ _ (natToChars_all_digit _)
  have hMdig : ∀ c ∈ M, c.isDigit = true :=
    padZero_all_digit _ _ (natToChars_all_digit _)
  have hDdig : ∀ c ∈ D, c.isDigit = true :=
    padZero_all_digit _ _ (natToChars_all_digit _)
  have hsplit : splitDash (Y ++ '-' :: (M ++ '-' :: D)) = [Y, M, D] := by
    rw [splitDash_append _ _ (fun c hc => ne_dash_of_isDigit (hYdig c hc)),
      splitDash_append _ _ (fun c hc => ne_dash_of_isDigit (hMdig c hc)),
      splitDash_no_dash _ (fun c hc => ne_dash_of_isDigit (hDdig c hc))]
  have hYv : charsToNat Y = y.toNat := by
    rw [hYdef, charsToNat_padZero, charsToNat_natToChars]
  have hMv : charsToNat M = m + 1 := by
    rw [hMdef, charsToNat_padZero, charsToNat_natToChars]
  have hDv : charsToNat D = dd := by
    rw [hDdef, charsToNat_padZero, charsToNat_natToChars]
  have hYne : Y ≠ [] := padZero_ne_nil _ _ (natToChars_ne_nil _)
  have hMne : M ≠ [] := padZero_ne_nil _ _ (natToChars_ne_nil _)
  have hDne : D ≠ [] := padZero_ne_nil _ _ (natToChars_ne_nil _)
  have hrange : 1 ≤ charsToNat M ∧ charsToNat M ≤ 12 ∧ 1 ≤ charsToNat D
      ∧ charsToNat D
          ≤ getDaysAmountInAMonth (charsToNat Y : Int) (charsToNat M - 1) := by
    rw [hYv, hMv, hDv, Int.toNat_of_nonneg hy]
    exact ⟨by omega, by omega, hd1, by simpa using hd2⟩
  show getDateFromInputValue
      (String.mk (Y ++ '-' :: (M ++ '-' :: D))) = some ⟨y, m, dd⟩
  unfold getDateFromInputValue
  have htl : (String.mk (Y ++ '-' :: (M ++ '-' :: D))).toList
      = Y ++ '-' :: (M ++ '-' :: D) := rfl
  rw [htl, hsplit]
  dsimp only
  rw [if_pos hrange]
  rw [hYv, hMv, hDv, Int.toNat_of_nonneg hy]
  simp
  exact ⟨⟨⟨hYne, hMne⟩, hDne⟩, hYdig, hMdig, hDdig⟩

/-- Concrete round trip through the canonical format at the leap day
2024-02-29. -/
theorem parse_format_roundtrip_witness :
    getDateFromInputValue (getInputValueFromDate ⟨2024, 1, 29⟩)
      = some ⟨2024, 1, 29⟩ :=
  parse_format_roundtrip ⟨2024, 1, 29⟩ (by decide) (by decide) (by decide)
    (by decide)

/-- Concrete run of the grid invariant for May 2023: 42 cells with a
31-cell current segment. -/
theorem grid_structure_witness :
    (dateCells 2023 4).length = 42
    ∧ (getCurrentMonthDays 2023 4 (getDaysAmountInAMonth 2023 4)).length
        = getDaysAmountInAMonth 2023 4 :=
  ⟨(grid_structure 2023 4 (by decide)).2.1,
   (grid_structure 2023 4 (by decide)).2.2.1⟩

end DatePicker
